import Mathlib

/-!
Verification of the CampusMate backend's attendance/marks workflow and the
teacher XP/leveling system, shallowly embedded from the JavaScript source
(backend/routes/teachers.js, backend/routes/marks.js, backend/routes/attendance.js).

Stores (MySQL tables accessed through parameterized queries) are modelled as
association lists; the `ON DUPLICATE KEY UPDATE` bulk insert is modelled as a
left fold of a single-row upsert keyed by the table's natural unique key.
-/

namespace CampusMate

/-! ## Constants (backend/routes/teachers.js lines 8-11) -/

def XP_ATTENDANCE : Nat := 10
def XP_MARKS : Nat := 15
def MAX_LEVEL : Nat := 10

/-! ## Teacher XP state: columns (xp, level, next_xp_target) of the teachers table -/

structure XPState where
  xp : Nat
  level : Nat
  next_xp_target : Nat
deriving Repr, DecidableEq

/-- Body of one iteration of the while-loop in `checkTeacherLevelUp`
(teachers.js lines 115-129): subtract the target from xp, increment the level,
and add 150 to the target unless the new level is the max level. -/
def levelStep (s : XPState) : XPState :=
  { xp := s.xp - s.next_xp_target
    level := s.level + 1
    next_xp_target :=
      if s.level + 1 < MAX_LEVEL then s.next_xp_target + 150 else s.next_xp_target }

/-- Fuel-indexed unfolding of the while-loop of `checkTeacherLevelUp`
(teachers.js lines 115-130). Each iteration raises `level` by one, so
`MAX_LEVEL - level` fuel is exactly enough (the guard requires `level < MAX_LEVEL`). -/
def levelLoopFuel : Nat → XPState → XPState
  | 0, s => s
  | fuel + 1, s =>
      if s.level < MAX_LEVEL ∧ s.next_xp_target ≤ s.xp then
        levelLoopFuel fuel (levelStep s)
      else s

/-- The while-loop of `checkTeacherLevelUp` (teachers.js lines 115-130),
run to completion on a state already read from the store. -/
def levelLoop (s : XPState) : XPState :=
  levelLoopFuel (MAX_LEVEL - s.level) s

/-- `checkTeacherLevelUp` applied to a state that was found in the store
(teachers.js lines 101-131): early return when already at max level,
otherwise run the level-up loop. -/
def checkTeacherLevelUp (s : XPState) : XPState :=
  if MAX_LEVEL ≤ s.level then s else levelLoop s

/-- `addTeacherXP` at the level of a single teacher's state
(teachers.js lines 78-99): `UPDATE teachers SET xp = xp + ?` followed by
`checkTeacherLevelUp`. -/
def addTeacherXP (s : XPState) (amount : Nat) : XPState :=
  checkTeacherLevelUp { s with xp := s.xp + amount }

/-- Modelled from the spec: the while-loop of section 4.4 of the spec, written
independently of the code. "While `level < 10` and `xp >= next_xp_target`:
subtract `next_xp_target` from `xp`; increment `level`; if `level < 10`,
increase `next_xp_target` by a fixed step of 150; if `level == 10`, leave
`next_xp_target` unchanged." The loop raises `level` every iteration and its
guard requires `level < 10`, so `10 - level` fuel runs it to completion. -/
def specLoop : Nat → XPState → XPState
  | 0, s => s
  | n + 1, s =>
      if s.level < 10 ∧ s.next_xp_target ≤ s.xp then
        specLoop n
          { xp := s.xp - s.next_xp_target
            level := s.level + 1
            next_xp_target :=
              if s.level + 1 < 10 then s.next_xp_target + 150 else s.next_xp_target }
      else s

/-- Modelled from the spec: the `award(teacherId, amount)` transition of
section 4.4 — add `amount` to `xp`, then run the level-up while-loop. -/
def specAward (s : XPState) (amount : Nat) : XPState :=
  specLoop (10 - s.level) { s with xp := s.xp + amount }

/-! ## Teachers-table level XP operations -/

/-- The teachers table, restricted to the columns the XP system touches:
one `(id, XPState)` row per teacher. -/
abbrev TeacherStore := List (Nat × XPState)

/-- `SELECT xp, level, next_xp_target FROM teachers WHERE id = ?` taking
`rows[0]` (teachers.js lines 102-109): the first row with the given id. -/
def teacherLookup : TeacherStore → Nat → Option XPState
  | [], _ => none
  | (i, s) :: rest, tid => if i = tid then some s else teacherLookup rest tid

/-- `UPDATE teachers SET ... WHERE id = ?`: rewrite every row whose id matches
(a no-op when no row matches, mirroring `affectedRows = 0`). -/
def updateTeacher (ts : TeacherStore) (tid : Nat) (f : XPState → XPState) : TeacherStore :=
  ts.map (fun p => if p.1 = tid then (p.1, f p.2) else p)

/-- `checkTeacherLevelUp` against the teachers table (teachers.js lines
101-131): read the row; return immediately when it is absent or already at max
level; otherwise persist the result of the level-up loop. -/
def checkTeacherLevelUpEnv (ts : TeacherStore) (tid : Nat) : TeacherStore :=
  match teacherLookup ts tid with
  | none => ts
  | some s =>
      if MAX_LEVEL ≤ s.level then ts
      else updateTeacher ts tid (fun _ => levelLoop s)

/-- `addTeacherXP` against the teachers table (teachers.js lines 78-99):
`UPDATE teachers SET xp = xp + ?` (a no-op on a missing id), then the level-up
check. -/
def addTeacherXPEnv (ts : TeacherStore) (tid : Nat) (amount : Nat) : TeacherStore :=
  checkTeacherLevelUpEnv (updateTeacher ts tid (fun s => { s with xp := s.xp + amount })) tid

/-! ## Authenticated principal (set by the auth middleware as `req.user`) -/

structure User where
  id : Nat
  role : String
deriving Repr, DecidableEq

/-- `isAdmin` (teachers.js lines 64-66). -/
def isAdmin (u : User) : Bool := u.role = "admin"

/-- `isSelf` (teachers.js lines 67-69): `Number(user.id) === Number(id)`. -/
def isSelf (u : User) (id : Nat) : Bool := u.id = id

/-- `user && user.id ? user.id : null` (teachers.js line 710): the value stored
in `recorded_by`; a falsy id (0) becomes NULL. -/
def recBy (u : User) : Option Nat := if u.id = 0 then none else some u.id

/-! ## Date validation (`isValidDateString`, teachers.js lines 600-602) -/

/-- Number of days `new Date` accepts for a month in an ISO `YYYY-MM-DD` string. -/
def daysInMonth (y m : Nat) : Nat :=
  if m = 2 then
    if (y % 4 = 0 ∧ y % 100 ≠ 0) ∨ y % 400 = 0 then 29 else 28
  else if m = 4 ∨ m = 6 ∨ m = 9 ∨ m = 11 then 30
  else 31

/-- `isValidDateString` (teachers.js lines 600-602): the string must match
`^\d{4}-\d{2}-\d{2}$` and `new Date(d)` must not be NaN, i.e. the month must be
1..12 and the day 1..daysInMonth. -/
def isValidDateString (d : String) : Bool :=
  match d.toList with
  | [y1, y2, y3, y4, '-', m1, m2, '-', d1, d2] =>
      if y1.isDigit ∧ y2.isDigit ∧ y3.isDigit ∧ y4.isDigit ∧
         m1.isDigit ∧ m2.isDigit ∧ d1.isDigit ∧ d2.isDigit then
        let y := ((y1.toNat - 48) * 10 + (y2.toNat - 48)) * 100 +
                 (y3.toNat - 48) * 10 + (y4.toNat - 48)
        let m := (m1.toNat - 48) * 10 + (m2.toNat - 48)
        let dd := (d1.toNat - 48) * 10 + (d2.toNat - 48)
        decide (1 ≤ m ∧ m ≤ 12 ∧ 1 ≤ dd ∧ dd ≤ daysInMonth y m)
      else false
  | _ => false

/-! ## Response type (section 6 of the spec: 200/400/403/500 JSON bodies) -/

inductive Resp where
  | ok (message : String) (count : Nat)
  | badRequest (message : String) (fields : String)
  | forbidden (message : String)
  | serverError (message : String)
deriving Repr, DecidableEq

def respMessage : Resp → String
  | .ok m _ => m
  | .badRequest m _ => m
  | .forbidden m => m
  | .serverError m => m

/-! ## Attendance table -/

/-- Natural unique key of the attendance table: (student_id, attendance_date). -/
abbrev AttKey := Nat × String

/-- The columns of an attendance row that the upsert writes (timestamps are
not modelled). -/
structure AttRow where
  status : String
  recorded_by : Option Nat
deriving Repr, DecidableEq

abbrev AttStore := List (AttKey × AttRow)

/-- One row of the bulk `INSERT ... ON DUPLICATE KEY UPDATE` into attendance
(teachers.js lines 721-729): overwrite `status` and `recorded_by` of the
existing row with this key, or append a fresh row. -/
def attUpsert : AttStore → AttKey → AttRow → AttStore
  | [], k, v => [(k, v)]
  | (k', w) :: rest, k, v =>
      if k' = k then (k, v) :: rest else (k', w) :: attUpsert rest k v

/-- One record of the request body of POST /api/teachers/:id/attendance. -/
structure AttReqRecord where
  student_id : Nat
  status : String
deriving Repr, DecidableEq

/-- `String(r.status) === 'Present' ? 'Present' : 'Absent'` (teachers.js line 709). -/
def normStatus (s : String) : String := if s = "Present" then "Present" else "Absent"

/-- The multi-row attendance upsert built in teachers.js lines 704-729: one
`(student_id, DATE(?), status, recorded_by)` tuple per submitted record,
applied in order with ON-DUPLICATE-KEY overwrite semantics. -/
def attApply (store : AttStore) (date : String) (rb : Option Nat)
    (records : List AttReqRecord) : AttStore :=
  records.foldl
    (fun st r => attUpsert st (r.student_id, date) ⟨normStatus r.status, rb⟩) store

/-- The keys (student_id, attendance_date) present in the attendance table. -/
def attKeys (st : AttStore) : List AttKey := st.map Prod.fst

/-- Read the row stored under a key (first match). -/
def attLookup (k : AttKey) : AttStore → Option AttRow
  | [] => none
  | (k', v) :: rest => if k' = k then some v else attLookup k rest

/-- The row the last record of a submitted batch would write under key `k`,
if any: the ON-DUPLICATE-KEY upsert makes the final stored value of a key the
value of the last submitted record with that key. -/
def lastWrite (date : String) (rb : Option Nat) (k : AttKey) :
    List AttReqRecord → Option AttRow
  | [] => none
  | r :: rs =>
      match lastWrite date rb k rs with
      | some v => some v
      | none =>
          if (r.student_id, date) = k then some ⟨normStatus r.status, rb⟩ else none

/-! ## Marks table -/

/-- Natural unique key of the marks table: (student_id, batch_id, assessment). -/
abbrev MarkKey := Nat × Nat × String

/-- Columns of a marks row written by the upsert in marks.js lines 50-61.
On conflict every column is overwritten except `exam_date` (and the
unmodelled timestamps), which keeps its original value. -/
structure MarkRow where
  exam_date : Option String
  subject : Option String
  marks : Option Int
  semester : Option Int
  recorded_by : Option Nat
  max_marks : Option Int
deriving Repr, DecidableEq

abbrev MarkStore := List (MarkKey × MarkRow)

/-- The `INSERT ... ON DUPLICATE KEY UPDATE` of marks.js lines 50-61: insert a
fresh row, or overwrite everything except `exam_date` on key conflict. -/
def markUpsert : MarkStore → MarkKey → MarkRow → MarkStore
  | [], k, v => [(k, v)]
  | (k', w) :: rest, k, v =>
      if k' = k then (k, { v with exam_date := w.exam_date }) :: rest
      else (k', w) :: markUpsert rest k v

/-- One record of a marks request body after `buildPayload` normalisation
(marks.js lines 63-84). `student_id = 0` models `Number(r.student_id || 0)`
being falsy (missing or non-numeric). -/
structure MarkReqRecord where
  student_id : Nat
  subject : Option String
  marks : Option Int
  semester : Option Int
  recorded_by : Option Nat
deriving Repr, DecidableEq

/-- Body of POST /api/marks after `buildPayload` (marks.js lines 8-21).
`batch_id = 0` and `assessment = ""` model the falsy cases. -/
structure MarksBody where
  date : Option String
  batch_id : Nat
  assessment : String
  max_marks : Option Int
  records : List MarkReqRecord
deriving Repr, DecidableEq

/-- The per-record transaction loop of marks.js lines 63-96: upsert records in
order, but roll the whole transaction back (`none`, no rows written) as soon as
a record has a falsy `student_id`. -/
def marksApply (bid : Nat) (asm : String) (date : Option String) (mm : Option Int) :
    MarkStore → List MarkReqRecord → Option MarkStore
  | store, [] => some store
  | store, r :: rs =>
      if r.student_id = 0 then none
      else
        marksApply bid asm date mm
          (markUpsert store (r.student_id, bid, asm)
            ⟨date, r.subject, r.marks, r.semester, r.recorded_by, mm⟩) rs

/-! ## Environment: the tables the workflow touches -/

structure Env where
  /-- students table projected to (id, batch_id). -/
  students : List (Nat × Nat)
  /-- teacher_batches table as (teacher_id, batch_id) pairs. -/
  teacherBatches : List (Nat × Nat)
  teachers : TeacherStore
  attendance : AttStore
  marks : MarkStore
deriving Repr, DecidableEq

/-- `teacherHasBatch` (teachers.js lines 604-610). -/
def teacherHasBatch (env : Env) (tid bid : Nat) : Bool :=
  env.teacherBatches.any (fun p => p.1 = tid ∧ p.2 = bid)

/-- `SELECT id FROM students WHERE id IN (?) AND batch_id = ?` membership
test used in teachers.js lines 692-697. -/
def studentInBatch (env : Env) (sid bid : Nat) : Bool :=
  env.students.any (fun p => p.1 = sid ∧ p.2 = bid)

/-! ## POST /api/teachers/:id/attendance (teachers.js lines 652-748) -/

/-- Body of POST /api/teachers/:id/attendance. `batch_id = 0` models a falsy
batch_id; `student_id = 0` in a record models a falsy `Number(r.student_id)`. -/
structure AttReqBody where
  date : String
  batch_id : Nat
  records : List AttReqRecord
deriving Repr, DecidableEq

/-- The POST /api/teachers/:id/attendance handler (teachers.js lines 652-748).
`xpFails` models the XP side effect throwing: the handler catches the error,
logs it, and still returns the success response (lines 732-741). The
`!values.length` re-check of line 715 is dead code here because the records
list is already known non-empty. -/
def postAttendance (tid : Nat) (user : User) (body : AttReqBody) (xpFails : Bool)
    (env : Env) : Resp × Env :=
  if ¬ isValidDateString body.date then
    (.badRequest "Validation failed" "date: Invalid date", env)
  else if body.batch_id = 0 then
    (.badRequest "Validation failed" "batch_id: batch_id required", env)
  else if body.records.isEmpty then
    (.badRequest "Validation failed" "records: records must be non-empty array", env)
  else if ¬ isAdmin user ∧ ¬ isSelf user tid then
    (.forbidden "Forbidden", env)
  else if ¬ isAdmin user ∧ ¬ teacherHasBatch env tid body.batch_id then
    (.forbidden "Forbidden: not assigned to batch", env)
  else
    let studentIds := (body.records.map (·.student_id)).filter (· ≠ 0)
    if studentIds.isEmpty then
      (.badRequest "Validation failed" "records: student_id required", env)
    else if ¬ studentIds.all (fun sid => studentInBatch env sid body.batch_id) then
      (.badRequest "Validation failed" "records: Some student(s) not in selected batch", env)
    else
      let att := attApply env.attendance body.date (recBy user) body.records
      let ts :=
        if xpFails then env.teachers
        else addTeacherXPEnv env.teachers tid XP_ATTENDANCE
      (.ok "Saved" body.records.length, { env with attendance := att, teachers := ts })

/-! ## POST /api/marks (marks.js lines 29-109) and the teacher-scoped proxy -/

/-- The POST /api/marks handler (marks.js lines 29-109). It performs no role,
self or batch-assignment check: only payload validation, then the transactional
per-record upsert. -/
def marksPost (body : MarksBody) (env : Env) : Resp × Env :=
  if body.batch_id = 0 ∨ body.assessment = "" then
    (.badRequest "batch_id and assessment are required" "", env)
  else if body.records.isEmpty then
    (.badRequest "No records provided" "", env)
  else
    match marksApply body.batch_id body.assessment body.date body.max_marks
        env.marks body.records with
    | none => (.badRequest "Each record must include student_id" "", env)
    | some ms => (.ok "Marks saved" body.records.length, { env with marks := ms })

/-- Whether the pattern is an initial segment of the character list. -/
def startsWith : List Char → List Char → Bool
  | _, [] => true
  | [], _ :: _ => false
  | h :: hs, p :: ps => h = p && startsWith hs ps

/-- Whether the pattern occurs as a contiguous subsequence of the character
list. -/
def containsSeq : List Char → List Char → Bool
  | [], pat => startsWith [] pat
  | h :: t, pat => startsWith (h :: t) pat || containsSeq t pat

/-- Case-insensitive test of the wrapper's regular expression
`/mark|save|saved|success/i` (teachers.js line 41) against a response message:
the lowered message contains "mark", "save" or "success" as a substring
("saved" is subsumed by "save"). -/
def xpMsgTriggers (msg : String) : Bool :=
  let m := msg.toList.map Char.toLower
  containsSeq m ['m', 'a', 'r', 'k'] || containsSeq m ['s', 'a', 'v', 'e'] ||
    containsSeq m ['s', 'u', 'c', 'c', 'e', 's', 's']

/-- The POST /api/teachers/:tid/marks proxy (teachers.js lines 13-55): force
`recorded_by := tid` on every record, forward to the marks router's root POST
handler, and — via the wrapped `res.json` — award `XP_MARKS` when the response
message matches `/mark|save|saved|success/i`. `xpFails` models `addTeacherXP`
throwing; the wrapper catches it and still sends the original body. The only
access control is the `auth` middleware (a valid token): the forwarded handler
checks neither role nor batch assignment nor tid. -/
def postTeacherMarks (tid : Nat) (user : User) (body : MarksBody) (xpFails : Bool)
    (env : Env) : Resp × Env :=
  let forwarded : MarksBody :=
    { body with records := body.records.map (fun r => { r with recorded_by := some tid }) }
  let out := marksPost forwarded env
  if xpMsgTriggers (respMessage out.1) && ! xpFails then
    (out.1, { out.2 with teachers := addTeacherXPEnv out.2.teachers tid XP_MARKS })
  else out

/-! ## Lemmas about the XP leveling loop -/

theorem specLoop_eq_levelLoopFuel (n : Nat) (s : XPState) :
    specLoop n s = levelLoopFuel n s := by
  induction n generalizing s with
  | zero => rfl
  | succ n ih =>
      simp only [specLoop, levelLoopFuel, levelStep, MAX_LEVEL]
      split
      · exact ih _
      · rfl

theorem levelLoopFuel_level_le (n : Nat) (s : XPState) (h : s.level ≤ MAX_LEVEL) :
    (levelLoopFuel n s).level ≤ MAX_LEVEL := by
  induction n generalizing s with
  | zero => exact h
  | succ n ih =>
      simp only [levelLoopFuel]
      split
      · exact ih _ (by simpa [levelStep] using (by omega : s.level + 1 ≤ MAX_LEVEL))
      · exact h

theorem addTeacherXP_level_le (s : XPState) (a : Nat) (h : s.level ≤ MAX_LEVEL) :
    (addTeacherXP s a).level ≤ MAX_LEVEL := by
  simp only [addTeacherXP, checkTeacherLevelUp, levelLoop]
  split
  · exact h
  · exact levelLoopFuel_level_le _ _ h

theorem addTeacherXP_at_max (s : XPState) (a : Nat) (h : s.level = MAX_LEVEL) :
    addTeacherXP s a = { s with xp := s.xp + a } := by
  simp [addTeacherXP, checkTeacherLevelUp, h]

theorem foldl_addTeacherXP_at_max (amts : List Nat) (s : XPState)
    (h : s.level = MAX_LEVEL) :
    amts.foldl addTeacherXP s = { s with xp := s.xp + amts.sum } := by
  induction amts generalizing s with
  | nil => simp
  | cons a rest ih =>
      simp only [List.foldl_cons, List.sum_cons]
      rw [addTeacherXP_at_max s a h, ih _ (by simp [h])]
      simp [Nat.add_assoc]

theorem foldl_addTeacherXP_level_le (amts : List Nat) (s : XPState)
    (h : s.level ≤ MAX_LEVEL) :
    (amts.foldl addTeacherXP s).level ≤ MAX_LEVEL := by
  induction amts generalizing s with
  | nil => exact h
  | cons a rest ih => exact ih _ (addTeacherXP_level_le s a h)

/-! ## Claim theorems for the XP system -/

/-- Claim C1: the XP award operation adds the amount to xp and then runs the
spec's while-loop (subtract target, increment level, add 150 to the target
while the new level is below 10, freezing the target at level 10); awarding
250 from (0, 1, 250) gives exactly (0, 2, 400), and awarding 1000 from that
state gives (350, 3, 550), consistent with the 150-per-level increment. -/
theorem claim_c1_award_matches_spec :
    (∀ s a, addTeacherXP s a = specAward s a) ∧
    addTeacherXP ⟨0, 1, 250⟩ 250 = ⟨0, 2, 400⟩ ∧
    addTeacherXP ⟨0, 1, 250⟩ 1000 = ⟨350, 3, 550⟩ := by
  refine ⟨fun s a => ?_, by decide, by decide⟩
  simp only [addTeacherXP, checkTeacherLevelUp, specAward, specLoop_eq_levelLoopFuel,
    levelLoop, MAX_LEVEL]
  split
  · next h =>
      have : 10 - s.level = 0 := by omega
      rw [this]
      rfl
  · rfl

/-- Claim C5: starting from any state with level at most 10, any sequence of
XP awards keeps level at most 10; and once level equals 10, further awards
leave level and next_xp_target untouched (the target stays frozen) while xp
still accrues by the total awarded amount. -/
theorem claim_c5_level_capped (s : XPState) (amts : List Nat) (h : s.level ≤ 10) :
    (amts.foldl addTeacherXP s).level ≤ 10 ∧
    (s.level = 10 →
      amts.foldl addTeacherXP s = { s with xp := s.xp + amts.sum }) := by
  exact ⟨foldl_addTeacherXP_level_le amts s h,
    fun h10 => foldl_addTeacherXP_at_max amts s h10⟩

theorem claim_c5_level_capped_witness :
    (⟨500, 10, 1600⟩ : XPState).level ≤ 10 ∧
    (([250, 1000] : List Nat).foldl addTeacherXP ⟨500, 10, 1600⟩).level ≤ 10 ∧
    ([250, 1000] : List Nat).foldl addTeacherXP ⟨500, 10, 1600⟩ = ⟨1750, 10, 1600⟩ := by
  have h := claim_c5_level_capped ⟨500, 10, 1600⟩ [250, 1000] (by decide)
  exact ⟨by decide, h.1, by rw [h.2 rfl]; decide⟩

/-! ## Lemmas for the missing-teacher no-op -/

theorem teacherLookup_none_iff (ts : TeacherStore) (tid : Nat) :
    teacherLookup ts tid = none ↔ ∀ p ∈ ts, p.1 ≠ tid := by
  induction ts with
  | nil => simp [teacherLookup]
  | cons p rest ih =>
      obtain ⟨i, s⟩ := p
      by_cases hi : i = tid
      · simp [teacherLookup, hi]
      · simp [teacherLookup, hi, ih]

theorem updateTeacher_of_absent (ts : TeacherStore) (tid : Nat) (f : XPState → XPState)
    (h : ∀ p ∈ ts, p.1 ≠ tid) : updateTeacher ts tid f = ts := by
  induction ts with
  | nil => rfl
  | cons p rest ih =>
      have hp : p.1 ≠ tid := h p (by simp)
      simp only [updateTeacher, List.map_cons, if_neg hp]
      have := ih (fun q hq => h q (by simp [hq]))
      simpa [updateTeacher] using this

/-- Claim C10: awarding XP to a teacher id with no row in the teachers store
is a silent no-op — the store is unchanged and the level-up check returns
immediately without touching any row. -/
theorem claim_c10_missing_teacher_noop (ts : TeacherStore) (tid amount : Nat)
    (h : teacherLookup ts tid = none) :
    addTeacherXPEnv ts tid amount = ts ∧ checkTeacherLevelUpEnv ts tid = ts := by
  have habs : ∀ p ∈ ts, p.1 ≠ tid := (teacherLookup_none_iff ts tid).mp h
  have hupd : ∀ f, updateTeacher ts tid f = ts := fun f => updateTeacher_of_absent ts tid f habs
  constructor
  · simp only [addTeacherXPEnv, hupd, checkTeacherLevelUpEnv, h]
  · simp only [checkTeacherLevelUpEnv, h]

theorem claim_c10_missing_teacher_noop_witness :
    teacherLookup [(1, ⟨0, 1, 250⟩)] 2 = none ∧
    addTeacherXPEnv [(1, ⟨0, 1, 250⟩)] 2 10 = [(1, ⟨0, 1, 250⟩)] ∧
    checkTeacherLevelUpEnv [(1, ⟨0, 1, 250⟩)] 2 = [(1, ⟨0, 1, 250⟩)] := by
  have h := claim_c10_missing_teacher_noop [(1, ⟨0, 1, 250⟩)] 2 10 (by decide)
  exact ⟨by decide, h.1, h.2⟩

/-! ## Lemmas about the attendance upsert store -/

theorem attApply_cons (st : AttStore) (d : String) (rb : Option Nat)
    (r : AttReqRecord) (rs : List AttReqRecord) :
    attApply st d rb (r :: rs) =
      attApply (attUpsert st (r.student_id, d) ⟨normStatus r.status, rb⟩) d rb rs := rfl

theorem attLookup_attUpsert_self (st : AttStore) (k : AttKey) (v : AttRow) :
    attLookup k (attUpsert st k v) = some v := by
  induction st with
  | nil => simp [attUpsert, attLookup]
  | cons p rest ih =>
      obtain ⟨k1, w⟩ := p
      by_cases hk : k1 = k
      · simp [attUpsert, attLookup, hk]
      · simp [attUpsert, attLookup, hk, ih]

theorem attKeys_nil : attKeys [] = [] := rfl

theorem attKeys_cons (p : AttKey × AttRow) (l : AttStore) :
    attKeys (p :: l) = p.1 :: attKeys l := rfl

theorem attLookup_attUpsert_other (st : AttStore) (k k' : AttKey) (v : AttRow)
    (h : k' ≠ k) : attLookup k' (attUpsert st k v) = attLookup k' st := by
  induction st with
  | nil => simp only [attUpsert, attLookup, if_neg (Ne.symm h)]
  | cons p rest ih =>
      obtain ⟨k1, w⟩ := p
      by_cases hk : k1 = k
      · subst hk
        simp only [attUpsert, if_pos rfl, attLookup, if_neg (Ne.symm h)]
      · simp only [attUpsert, if_neg hk, attLookup]
        by_cases hk' : k1 = k'
        · rw [if_pos hk', if_pos hk']
        · rw [if_neg hk', if_neg hk', ih]

theorem attKeys_attUpsert (st : AttStore) (k : AttKey) (v : AttRow) :
    attKeys (attUpsert st k v) =
      if k ∈ attKeys st then attKeys st else attKeys st ++ [k] := by
  induction st with
  | nil => simp [attUpsert, attKeys_cons, attKeys_nil]
  | cons p rest ih =>
      obtain ⟨k1, w⟩ := p
      by_cases hk : k1 = k
      · subst hk
        simp [attUpsert, attKeys_cons]
      · simp only [attUpsert, if_neg hk, attKeys_cons, ih]
        by_cases hmem : k ∈ attKeys rest
        · rw [if_pos hmem, if_pos (List.mem_cons_of_mem _ hmem)]
        · rw [if_neg hmem,
            if_neg (by
              simp only [List.mem_cons, not_or]
              exact ⟨fun hh => hk hh.symm, hmem⟩),
            List.cons_append]

theorem attKeys_attUpsert_nodup (st : AttStore) (k : AttKey) (v : AttRow)
    (h : (attKeys st).Nodup) : (attKeys (attUpsert st k v)).Nodup := by
  rw [attKeys_attUpsert]
  split
  · exact h
  · next hmem =>
      exact List.Nodup.append h (List.nodup_singleton k)
        (fun a ha hb => by simp at hb; subst hb; exact hmem ha)

theorem mem_attKeys_attUpsert_of_mem (st : AttStore) (k k' : AttKey) (v : AttRow)
    (h : k' ∈ attKeys st) : k' ∈ attKeys (attUpsert st k v) := by
  rw [attKeys_attUpsert]
  split
  · exact h
  · exact List.mem_append_left _ h

theorem self_mem_attKeys_attUpsert (st : AttStore) (k : AttKey) (v : AttRow) :
    k ∈ attKeys (attUpsert st k v) := by
  rw [attKeys_attUpsert]
  split
  · assumption
  · simp

theorem attLookup_attApply (st : AttStore) (d : String) (rb : Option Nat)
    (recs : List AttReqRecord) (k : AttKey) :
    attLookup k (attApply st d rb recs) =
      match lastWrite d rb k recs with
      | some v => some v
      | none => attLookup k st := by
  induction recs generalizing st with
  | nil => rfl
  | cons r rs ih =>
      rw [attApply_cons, ih]
      cases h : lastWrite d rb k rs with
      | some v => simp [lastWrite, h]
      | none =>
          simp only [lastWrite, h]
          by_cases hk : (r.student_id, d) = k
          · subst hk
            simp [attLookup_attUpsert_self]
          · rw [if_neg hk]
            exact attLookup_attUpsert_other _ _ _ _ (fun hh => hk hh.symm)

theorem mem_attKeys_attApply_of_mem (st : AttStore) (d : String) (rb : Option Nat)
    (recs : List AttReqRecord) (k : AttKey) (h : k ∈ attKeys st) :
    k ∈ attKeys (attApply st d rb recs) := by
  induction recs generalizing st with
  | nil => exact h
  | cons r rs ih =>
      rw [attApply_cons]
      exact ih _ (mem_attKeys_attUpsert_of_mem _ _ _ _ h)

theorem recKeys_mem_attKeys_attApply (st : AttStore) (d : String) (rb : Option Nat)
    (recs : List AttReqRecord) :
    ∀ r ∈ recs, (r.student_id, d) ∈ attKeys (attApply st d rb recs) := by
  induction recs generalizing st with
  | nil => intro r hr; cases hr
  | cons r0 rs ih =>
      intro r hr
      rcases List.mem_cons.mp hr with h | h
      · subst h
        rw [attApply_cons]
        exact mem_attKeys_attApply_of_mem _ _ _ _ _ (self_mem_attKeys_attUpsert _ _ _)
      · rw [attApply_cons]
        exact ih _ r h

theorem attKeys_attApply_of_covered (st : AttStore) (d : String) (rb : Option Nat)
    (recs : List AttReqRecord)
    (h : ∀ r ∈ recs, (r.student_id, d) ∈ attKeys st) :
    attKeys (attApply st d rb recs) = attKeys st := by
  induction recs generalizing st with
  | nil => rfl
  | cons r rs ih =>
      rw [attApply_cons]
      have hk : attKeys (attUpsert st (r.student_id, d) ⟨normStatus r.status, rb⟩) =
          attKeys st := by
        rw [attKeys_attUpsert, if_pos (h r (by simp))]
      rw [ih _ (fun r' hr' => by rw [hk]; exact h r' (by simp [hr'])), hk]

theorem attKeys_attApply_nodup (st : AttStore) (d : String) (rb : Option Nat)
    (recs : List AttReqRecord) (h : (attKeys st).Nodup) :
    (attKeys (attApply st d rb recs)).Nodup := by
  induction recs generalizing st with
  | nil => exact h
  | cons r rs ih =>
      rw [attApply_cons]
      exact ih _ (attKeys_attUpsert_nodup _ _ _ h)

theorem attLookup_eq_none_of_not_mem (st : AttStore) (k : AttKey)
    (h : k ∉ attKeys st) : attLookup k st = none := by
  induction st with
  | nil => rfl
  | cons p rest ih =>
      obtain ⟨k1, v⟩ := p
      rw [attKeys_cons] at h
      simp only [List.mem_cons, not_or] at h
      obtain ⟨hne, hmem⟩ := h
      simp only [attLookup, if_neg (fun hh : k1 = k => hne hh.symm)]
      exact ih hmem

theorem attStore_ext (s : AttStore) (t : AttStore) (h1 : (attKeys s).Nodup)
    (h2 : attKeys s = attKeys t) (h3 : ∀ k, attLookup k s = attLookup k t) :
    s = t := by
  induction s generalizing t with
  | nil =>
      cases t with
      | nil => rfl
      | cons p t' =>
          rw [attKeys_nil, attKeys_cons] at h2
          exact absurd h2 (by simp)
  | cons p s' ih =>
      obtain ⟨k, v⟩ := p
      cases t with
      | nil =>
          rw [attKeys_cons, attKeys_nil] at h2
          exact absurd h2 (by simp)
      | cons q t' =>
          obtain ⟨k2, w⟩ := q
          rw [attKeys_cons, attKeys_cons] at h2
          simp only [List.cons.injEq] at h2
          obtain ⟨hk, hkeys⟩ := h2
          subst hk
          rw [attKeys_cons] at h1
          have hnodup := List.nodup_cons.mp h1
          have hvw : v = w := by
            have := h3 k
            simpa [attLookup] using this
          subst hvw
          have hnotin : k ∉ attKeys s' := hnodup.1
          have hnotin' : k ∉ attKeys t' := by rw [← hkeys]; exact hnotin
          have htail : s' = t' := by
            refine ih t' hnodup.2 hkeys ?_
            intro k'
            by_cases hk' : k' = k
            · subst hk'
              rw [attLookup_eq_none_of_not_mem _ _ hnotin,
                attLookup_eq_none_of_not_mem _ _ hnotin']
            · have := h3 k'
              have hne : ¬ k = k' := fun hh => hk' hh.symm
              simpa [attLookup, if_neg hne] using this
          rw [htail]

theorem lastWrite_eq_none_of_no_key (d : String) (rb : Option Nat) (k : AttKey)
    (recs : List AttReqRecord) (h : ∀ r ∈ recs, (r.student_id, d) ≠ k) :
    lastWrite d rb k recs = none := by
  induction recs with
  | nil => rfl
  | cons r rs ih =>
      simp only [lastWrite, ih (fun r' hr' => h r' (by simp [hr']))]
      simp [h r (by simp)]

theorem attApply_idem (st : AttStore) (d : String) (rb : Option Nat)
    (recs : List AttReqRecord) (h : (attKeys st).Nodup) :
    attApply (attApply st d rb recs) d rb recs = attApply st d rb recs := by
  refine attStore_ext _ _ (attKeys_attApply_nodup _ _ _ _
    (attKeys_attApply_nodup _ _ _ _ h)) ?_ ?_
  · exact attKeys_attApply_of_covered _ _ _ _
      (recKeys_mem_attKeys_attApply st d rb recs)
  · intro k
    rw [attLookup_attApply]
    cases hlw : lastWrite d rb k recs with
    | some v =>
        simp only [hlw]
        rw [attLookup_attApply, hlw]
    | none => simp only [hlw]

theorem countP_eq_one_of_nodup_of_mem {α : Type} [DecidableEq α] (l : List α) (a : α)
    (h : l.Nodup) (hm : a ∈ l) : l.countP (fun x => x = a) = 1 := by
  induction l with
  | nil => cases hm
  | cons b l' ih =>
      rw [List.countP_cons]
      have hnd := List.nodup_cons.mp h
      rcases List.mem_cons.mp hm with hab | hml
      · subst hab
        have hz : l'.countP (fun x => decide (x = a)) = 0 := by
          rw [List.countP_eq_zero]
          intro x hx
          simp only [decide_eq_true_eq]
          exact fun hxa => hnd.1 (hxa ▸ hx)
        simp [hz]
      · have hba : ¬ (b = a) := fun hba => hnd.1 (hba ▸ hml)
        simp [ih hnd.2 hml, hba]

/-! ## Success characterization of the attendance handler -/

theorem postAttendance_ok (tid : Nat) (user : User) (body : AttReqBody) (xpF : Bool)
    (env : Env) (m : String) (n : Nat)
    (h : (postAttendance tid user body xpF env).1 = Resp.ok m n) :
    m = "Saved" ∧ n = body.records.length ∧
    (postAttendance tid user body xpF env).2 =
      { env with
        attendance := attApply env.attendance body.date (recBy user) body.records
        teachers :=
          if xpF then env.teachers
          else addTeacherXPEnv env.teachers tid XP_ATTENDANCE } := by
  simp only [postAttendance] at h ⊢
  split_ifs at h ⊢ <;> simp_all

/-- Claim C6: the attendance store is keyed by (student, date). On a
successful submission the handler's final attendance store is the ordered
upsert of the records; that upsert is idempotent on a duplicate-free store;
submitting Present then Absent for the same (student, date) leaves exactly one
row for that key, holding Absent and the later recorder; and keys not named by
a submission keep their previous row. -/
theorem claim_c6_upsert_semantics :
    (∀ tid user body xpF env m n,
      (postAttendance tid user body xpF env).1 = Resp.ok m n →
      (postAttendance tid user body xpF env).2.attendance =
        attApply env.attendance body.date (recBy user) body.records) ∧
    (∀ (st : AttStore) (d : String) (rb : Option Nat) (recs : List AttReqRecord),
      (attKeys st).Nodup →
      attApply (attApply st d rb recs) d rb recs = attApply st d rb recs) ∧
    (∀ (st : AttStore) (S : Nat) (D : String) (rb1 rb2 : Option Nat),
      (attKeys st).Nodup →
      attLookup (S, D)
          (attApply (attApply st D rb1 [⟨S, "Present"⟩]) D rb2 [⟨S, "Absent"⟩]) =
        some ⟨"Absent", rb2⟩ ∧
      (attKeys
          (attApply (attApply st D rb1 [⟨S, "Present"⟩]) D rb2 [⟨S, "Absent"⟩])).countP
          (fun k => k = (S, D)) = 1) ∧
    (∀ (st : AttStore) (d : String) (rb : Option Nat) (recs : List AttReqRecord)
        (k : AttKey),
      (∀ r ∈ recs, (r.student_id, d) ≠ k) →
      attLookup k (attApply st d rb recs) = attLookup k st) := by
  refine ⟨?_, ?_, ?_, ?_⟩
  · intro tid user body xpF env m n h
    rw [(postAttendance_ok tid user body xpF env m n h).2.2]
  · intro st d rb recs h
    exact attApply_idem st d rb recs h
  · intro st S D rb1 rb2 h
    constructor
    · rw [attLookup_attApply]
      simp [lastWrite, normStatus]
    · exact countP_eq_one_of_nodup_of_mem _ _
        (attKeys_attApply_nodup _ _ _ _ (attKeys_attApply_nodup _ _ _ _ h))
        (recKeys_mem_attKeys_attApply _ _ _ _ ⟨S, "Absent"⟩ (List.mem_singleton_self _))
  · intro st d rb recs k h
    rw [attLookup_attApply, lastWrite_eq_none_of_no_key d rb k recs h]

theorem claim_c6_upsert_semantics_witness :
    ((postAttendance 1 ⟨1, "admin"⟩ ⟨"2024-01-02", 3, [⟨7, "Present"⟩]⟩ false
        ⟨[(7, 3)], [], [], [], []⟩).2.attendance =
      attApply [] "2024-01-02" (some 1) [⟨7, "Present"⟩]) ∧
    attApply (attApply [] "2024-01-02" (some 1) [⟨7, "Present"⟩]) "2024-01-02"
        (some 1) [⟨7, "Present"⟩] =
      attApply [] "2024-01-02" (some 1) [⟨7, "Present"⟩] ∧
    attLookup (7, "2024-01-02")
        (attApply (attApply [] "2024-01-02" (some 1) [⟨7, "Present"⟩]) "2024-01-02"
          (some 2) [⟨7, "Absent"⟩]) = some ⟨"Absent", some 2⟩ ∧
    attLookup (8, "2024-01-02") (attApply [((8, "2024-01-02"), ⟨"Present", some 1⟩)]
        "2024-01-02" (some 2) [⟨7, "Absent"⟩]) = some ⟨"Present", some 1⟩ := by
  refine ⟨claim_c6_upsert_semantics.1 1 ⟨1, "admin"⟩ ⟨"2024-01-02", 3, [⟨7, "Present"⟩]⟩
      false ⟨[(7, 3)], [], [], [], []⟩ "Saved" 1 (by decide),
    claim_c6_upsert_semantics.2.1 [] "2024-01-02" (some 1) [⟨7, "Present"⟩] (by decide),
    (claim_c6_upsert_semantics.2.2.1 [] 7 "2024-01-02" (some 1) (some 2) (by decide)).1,
    claim_c6_upsert_semantics.2.2.2 [((8, "2024-01-02"), ⟨"Present", some 1⟩)]
      "2024-01-02" (some 2) [⟨7, "Absent"⟩] (8, "2024-01-02") (by decide)⟩

/-- Claim C3: on a well-formed attendance body, a non-admin acting user who is
not the path teacher, or who lacks the batch assignment, gets a 403 denial and
the environment — attendance rows included — is unchanged; the same
well-formed request from an admin (with records passing student validation)
succeeds with no assignment required. -/
theorem claim_c3_attendance_authorization (tid : Nat) (user : User) (body : AttReqBody)
    (xpF : Bool) (env : Env)
    (hdate : isValidDateString body.date = true)
    (hbid : body.batch_id ≠ 0)
    (hrec : body.records ≠ []) :
    (isAdmin user = false →
      (user.id ≠ tid ∨ teacherHasBatch env tid body.batch_id = false) →
      ((postAttendance tid user body xpF env).1 = Resp.forbidden "Forbidden" ∨
        (postAttendance tid user body xpF env).1 =
          Resp.forbidden "Forbidden: not assigned to batch") ∧
      (postAttendance tid user body xpF env).2 = env) ∧
    (isAdmin user = true →
      (body.records.map (·.student_id)).filter (· ≠ 0) ≠ [] →
      (∀ sid ∈ (body.records.map (·.student_id)).filter (· ≠ 0),
        studentInBatch env sid body.batch_id = true) →
      (postAttendance tid user body xpF env).1 = Resp.ok "Saved" body.records.length) := by
  have hrecE : body.records.isEmpty = false := by
    cases hb : body.records with
    | nil => exact absurd hb hrec
    | cons a l => rfl
  constructor
  · intro hadm hor
    by_cases hself : user.id = tid
    · have hb : teacherHasBatch env tid body.batch_id = false := by
        rcases hor with h | h
        · exact absurd hself h
        · exact h
      refine ⟨Or.inr ?_, ?_⟩ <;>
        simp [postAttendance, hdate, hbid, hrecE, hadm, isSelf, hself, hb]
    · refine ⟨Or.inl ?_, ?_⟩ <;>
        simp [postAttendance, hdate, hbid, hrecE, hadm, isSelf, hself]
  · intro hadm hne hall
    obtain ⟨x, hx⟩ := List.exists_mem_of_ne_nil _ hne
    have hx' := List.mem_filter.mp hx
    obtain ⟨r, hr, hrx⟩ := List.mem_map.mp hx'.1
    have hr0 : r.student_id ≠ 0 := by
      rw [hrx]
      simpa using hx'.2
    have hcond1 : ¬ ∀ a ∈ body.records, a.student_id = 0 := fun hfa => hr0 (hfa r hr)
    have hcond2 : ¬ ∃ y ∈ body.records, ¬ y.student_id = 0 ∧
        studentInBatch env y.student_id body.batch_id = false := by
      rintro ⟨y, hy, hy0, hyb⟩
      have hmem : y.student_id ∈ (body.records.map (·.student_id)).filter (· ≠ 0) :=
        List.mem_filter.mpr ⟨List.mem_map_of_mem _ hy, by simpa using hy0⟩
      have hyt := hall _ hmem
      rw [hyt] at hyb
      cases hyb
    simp [postAttendance, hdate, hbid, hrecE, hadm, hcond1, hcond2]

theorem claim_c3_attendance_authorization_witness :
    ((postAttendance 1 ⟨2, "teacher"⟩ ⟨"2024-01-02", 3, [⟨7, "Present"⟩]⟩ false
        ⟨[(7, 3)], [(1, 3)], [], [], []⟩).1 = Resp.forbidden "Forbidden" ∨
      (postAttendance 1 ⟨2, "teacher"⟩ ⟨"2024-01-02", 3, [⟨7, "Present"⟩]⟩ false
        ⟨[(7, 3)], [(1, 3)], [], [], []⟩).1 =
        Resp.forbidden "Forbidden: not assigned to batch") ∧
    (postAttendance 1 ⟨2, "teacher"⟩ ⟨"2024-01-02", 3, [⟨7, "Present"⟩]⟩ false
        ⟨[(7, 3)], [(1, 3)], [], [], []⟩).2 = ⟨[(7, 3)], [(1, 3)], [], [], []⟩ ∧
    (postAttendance 1 ⟨9, "admin"⟩ ⟨"2024-01-02", 3, [⟨7, "Present"⟩]⟩ false
        ⟨[(7, 3)], [], [], [], []⟩).1 = Resp.ok "Saved" 1 := by
  have h1 := claim_c3_attendance_authorization 1 ⟨2, "teacher"⟩
    ⟨"2024-01-02", 3, [⟨7, "Present"⟩]⟩ false ⟨[(7, 3)], [(1, 3)], [], [], []⟩
    (by decide) (by decide) (by decide)
  have h2 := claim_c3_attendance_authorization 1 ⟨9, "admin"⟩
    ⟨"2024-01-02", 3, [⟨7, "Present"⟩]⟩ false ⟨[(7, 3)], [], [], [], []⟩
    (by decide) (by decide) (by decide)
  have hd := h1.1 (by decide) (Or.inl (by decide))
  exact ⟨hd.1, hd.2, h2.2 (by decide) (by decide) (by decide)⟩

/-- Claim C4: a well-formed, authorized attendance request whose records name
a (nonzero) student that does not belong to the target batch is rejected in
its entirety with a validation failure: the response is the 400 rejection and
the environment is unchanged, so no row is written — not even for the other,
valid records of the same request. -/
theorem claim_c4_reject_all_or_nothing (tid : Nat) (user : User) (body : AttReqBody)
    (xpF : Bool) (env : Env) (sid : Nat)
    (hdate : isValidDateString body.date = true)
    (hbid : body.batch_id ≠ 0)
    (hrec : body.records ≠ [])
    (hauth : isAdmin user = true ∨
      (user.id = tid ∧ teacherHasBatch env tid body.batch_id = true))
    (hsid : sid ∈ body.records.map (·.student_id))
    (hsid0 : sid ≠ 0)
    (hbad : studentInBatch env sid body.batch_id = false) :
    (postAttendance tid user body xpF env).1 =
      Resp.badRequest "Validation failed" "records: Some student(s) not in selected batch" ∧
    (postAttendance tid user body xpF env).2 = env := by
  have hrecE : body.records.isEmpty = false := by
    cases hb : body.records with
    | nil => exact absurd hb hrec
    | cons a l => rfl
  obtain ⟨r, hr, hrsid⟩ := List.mem_map.mp hsid
  have hcond1 : ¬ ∀ a ∈ body.records, a.student_id = 0 :=
    fun hfa => hsid0 (hrsid.symm.trans (hfa r hr))
  have hcond2 : ∃ y ∈ body.records, ¬ y.student_id = 0 ∧
      studentInBatch env y.student_id body.batch_id = false :=
    ⟨r, hr, by rw [hrsid]; exact hsid0, by rw [hrsid]; exact hbad⟩
  rcases hauth with hadm | ⟨hself, hb⟩
  · constructor <;> simp [postAttendance, hdate, hbid, hrecE, hadm, hcond1, hcond2]
  · constructor <;>
      simp [postAttendance, hdate, hbid, hrecE, isSelf, hself, hb, hcond1, hcond2]

theorem claim_c4_reject_all_or_nothing_witness :
    (postAttendance 1 ⟨1, "teacher"⟩ ⟨"2024-01-02", 3, [⟨7, "Present"⟩, ⟨8, "Present"⟩]⟩
        false ⟨[(7, 3)], [(1, 3)], [], [], []⟩).1 =
      Resp.badRequest "Validation failed" "records: Some student(s) not in selected batch" ∧
    (postAttendance 1 ⟨1, "teacher"⟩ ⟨"2024-01-02", 3, [⟨7, "Present"⟩, ⟨8, "Present"⟩]⟩
        false ⟨[(7, 3)], [(1, 3)], [], [], []⟩).2 = ⟨[(7, 3)], [(1, 3)], [], [], []⟩ := by
  exact claim_c4_reject_all_or_nothing 1 ⟨1, "teacher"⟩
    ⟨"2024-01-02", 3, [⟨7, "Present"⟩, ⟨8, "Present"⟩]⟩ false
    ⟨[(7, 3)], [(1, 3)], [], [], []⟩ 8 (by decide) (by decide) (by decide)
    (Or.inr ⟨rfl, by decide⟩) (by decide) (by decide) (by decide)

/-- Claim C7: a failure of the XP/leveling side effect after the attendance
write never reaches the caller: for every request, the response and the final
attendance store are identical whether the XP update fails (it is caught and
only logged) or succeeds — the rows stay written and the success response is
unchanged. -/
theorem claim_c7_xp_failure_soft (tid : Nat) (user : User) (body : AttReqBody)
    (env : Env) :
    (postAttendance tid user body true env).1 =
      (postAttendance tid user body false env).1 ∧
    (postAttendance tid user body true env).2.attendance =
      (postAttendance tid user body false env).2.attendance := by
  simp only [postAttendance]
  split_ifs <;> simp

/-! ## Lemmas about the marks flow -/

theorem marksApply_isSome (bid : Nat) (asm : String) (date : Option String)
    (mm : Option Int) (store : MarkStore) (records : List MarkReqRecord)
    (h : ∀ r ∈ records, r.student_id ≠ 0) :
    ∃ ms, marksApply bid asm date mm store records = some ms := by
  induction records generalizing store with
  | nil => exact ⟨store, rfl⟩
  | cons r rs ih =>
      simp only [marksApply, if_neg (h r (by simp))]
      exact ih _ (fun r' hr' => h r' (by simp [hr']))

theorem marksPost_teachers (body : MarksBody) (env : Env) :
    (marksPost body env).2.teachers = env.teachers := by
  simp only [marksPost]
  split_ifs
  · rfl
  · rfl
  · cases hm : marksApply body.batch_id body.assessment body.date body.max_marks
        env.marks body.records with
    | none => rfl
    | some ms => rfl

theorem marksPost_ok_inv (body : MarksBody) (env : Env) (m : String) (n : Nat)
    (h : (marksPost body env).1 = Resp.ok m n) :
    m = "Marks saved" ∧ n = body.records.length := by
  simp only [marksPost] at h
  split_ifs at h
  cases hm : marksApply body.batch_id body.assessment body.date body.max_marks
      env.marks body.records with
  | none => rw [hm] at h; simp at h
  | some ms =>
      rw [hm] at h
      simp only [Resp.ok.injEq] at h
      exact ⟨h.1.symm, h.2.symm⟩

theorem postTeacherMarks_fst (tid : Nat) (user : User) (body : MarksBody)
    (xpF : Bool) (env : Env) :
    (postTeacherMarks tid user body xpF env).1 =
      (marksPost
        { body with
          records := body.records.map (fun r => { r with recorded_by := some tid }) }
        env).1 := by
  simp only [postTeacherMarks]
  split_ifs <;> rfl

/-! ## Claim theorems for the marks flow -/

/-- Claim C2, counterexample: a teacher (id 2) who is not the path teacher
(tid 1) and holds no batch assignment at all submits marks; the claim says
this is denied and nothing is written, but the handler answers with the
success response and a marks row is stored. -/
theorem claim_c2_cex_unassigned_teacher_writes :
    (postTeacherMarks 1 ⟨2, "teacher"⟩
        ⟨none, 5, "Midterm", none, [⟨7, none, some 90, none, none⟩]⟩ false
        ⟨[], [], [], [], []⟩).1 = Resp.ok "Marks saved" 1 ∧
    (postTeacherMarks 1 ⟨2, "teacher"⟩
        ⟨none, 5, "Midterm", none, [⟨7, none, some 90, none, none⟩]⟩ false
        ⟨[], [], [], [], []⟩).2.marks =
      [((7, 5, "Midterm"), ⟨none, none, some 90, none, some 1, none⟩)] := by
  constructor <;> rfl

/-- Claim C2, amended: the marks write performs no authorization beyond
authentication — for every acting user (any role, any id, assigned or not) a
payload that passes validation (nonzero batch_id, non-empty assessment,
non-empty records, every record with a nonzero student_id) is written: the
response is the success response and the stored marks are exactly the upsert
of the forwarded records. -/
theorem claim_c2_amended_no_authorization (tid : Nat) (user : User) (body : MarksBody)
    (env : Env)
    (hbid : body.batch_id ≠ 0)
    (hasm : body.assessment ≠ "")
    (hrec : body.records ≠ [])
    (hall : ∀ r ∈ body.records, r.student_id ≠ 0) :
    (postTeacherMarks tid user body false env).1 =
      Resp.ok "Marks saved" body.records.length ∧
    marksApply body.batch_id body.assessment body.date body.max_marks env.marks
        (body.records.map (fun r => { r with recorded_by := some tid })) =
      some (postTeacherMarks tid user body false env).2.marks := by
  have hall' : ∀ r ∈ body.records.map (fun r => { r with recorded_by := some tid }),
      r.student_id ≠ 0 := by
    intro r hr
    obtain ⟨r0, hr0, hre⟩ := List.mem_map.mp hr
    rw [← hre]
    exact hall r0 hr0
  obtain ⟨ms, hms⟩ := marksApply_isSome body.batch_id body.assessment body.date
    body.max_marks env.marks _ hall'
  have hpost : marksPost
      { body with
        records := body.records.map (fun r => { r with recorded_by := some tid }) }
      env = (Resp.ok "Marks saved" body.records.length, { env with marks := ms }) := by
    simp [marksPost, hbid, hasm, hrec, hms]
  simp only [postTeacherMarks, hpost]
  have hcond : (xpMsgTriggers (respMessage (Resp.ok "Marks saved" body.records.length)) &&
      ! false) = true := by
    show (xpMsgTriggers "Marks saved" && ! false) = true
    decide
  rw [if_pos hcond]
  exact ⟨rfl, hms⟩

theorem claim_c2_amended_no_authorization_witness :
    (postTeacherMarks 4 ⟨3, "student"⟩
        ⟨some "2024-01-02", 6, "Final", some 100, [⟨9, some "Math", some 55, some 2, none⟩]⟩
        false ⟨[], [], [], [], []⟩).1 = Resp.ok "Marks saved" 1 := by
  exact (claim_c2_amended_no_authorization 4 ⟨3, "student"⟩
    ⟨some "2024-01-02", 6, "Final", some 100, [⟨9, some "Math", some 55, some 2, none⟩]⟩
    ⟨[], [], [], [], []⟩ (by decide) (by decide) (by decide) (by decide)).1

/-- Claim C8, counterexample: an attendance payload holding two records for
the same (student, date) key succeeds with count 2, yet only one distinct row
is written to the store — the returned count is the submitted record count,
not the number of distinct rows written. -/
theorem claim_c8_cex_count_vs_rows :
    (postAttendance 1 ⟨1, "admin"⟩
        ⟨"2024-01-02", 3, [⟨7, "Present"⟩, ⟨7, "Absent"⟩]⟩ false
        ⟨[(7, 3)], [], [], [], []⟩).1 = Resp.ok "Saved" 2 ∧
    ((postAttendance 1 ⟨1, "admin"⟩
        ⟨"2024-01-02", 3, [⟨7, "Present"⟩, ⟨7, "Absent"⟩]⟩ false
        ⟨[(7, 3)], [], [], [], []⟩).2.attendance).length = 1 := by
  constructor <;> rfl

/-- Claim C8, amended: on a successful attendance or marks write the count of
the 200 response equals the number of records in the submitted payload
(records.length); this equals the number of distinct rows written only when
the payload's keys are distinct. -/
theorem claim_c8_amended_count_is_submitted (tid : Nat) (user : User)
    (bodyA : AttReqBody) (bodyM : MarksBody) (xpF : Bool) (env : Env) :
    (∀ m n, (postAttendance tid user bodyA xpF env).1 = Resp.ok m n →
      n = bodyA.records.length) ∧
    (∀ m n, (postTeacherMarks tid user bodyM xpF env).1 = Resp.ok m n →
      n = bodyM.records.length) := by
  constructor
  · intro m n h
    exact (postAttendance_ok tid user bodyA xpF env m n h).2.1
  · intro m n h
    rw [postTeacherMarks_fst] at h
    have := (marksPost_ok_inv _ env m n h).2
    simpa using this

theorem claim_c8_amended_count_is_submitted_witness :
    (2 : Nat) = ([⟨7, "Present"⟩, ⟨7, "Absent"⟩] : List AttReqRecord).length := by
  exact (claim_c8_amended_count_is_submitted 1 ⟨1, "admin"⟩
    ⟨"2024-01-02", 3, [⟨7, "Present"⟩, ⟨7, "Absent"⟩]⟩ ⟨none, 0, "", none, []⟩ false
    ⟨[(7, 3)], [], [], [], []⟩).1 "Saved" 2 (by decide)

/-- Claim C9: every successful attendance submission awards the flat constant
XP_ATTENDANCE = 10 to the path teacher and every successful marks submission
awards the flat constant XP_MARKS = 15, independent of how many records the
payload holds: the final teachers store is exactly one constant-amount award
applied to the initial store. -/
theorem claim_c9_flat_rewards :
    (∀ tid user body env m n,
      (postAttendance tid user body false env).1 = Resp.ok m n →
      (postAttendance tid user body false env).2.teachers =
        addTeacherXPEnv env.teachers tid XP_ATTENDANCE) ∧
    (∀ tid user body env m n,
      (postTeacherMarks tid user body false env).1 = Resp.ok m n →
      (postTeacherMarks tid user body false env).2.teachers =
        addTeacherXPEnv env.teachers tid XP_MARKS) ∧
    XP_ATTENDANCE = 10 ∧ XP_MARKS = 15 := by
  refine ⟨?_, ?_, rfl, rfl⟩
  · intro tid user body env m n h
    rw [(postAttendance_ok tid user body false env m n h).2.2]
    simp
  · intro tid user body env m n h
    have hok : (marksPost
        { body with
          records := body.records.map (fun r => { r with recorded_by := some tid }) }
        env).1 = Resp.ok m n := by
      rw [← postTeacherMarks_fst tid user body false env]
      exact h
    have hm := (marksPost_ok_inv _ env m n hok).1
    subst hm
    have hcond : (xpMsgTriggers (respMessage (marksPost
        { body with
          records := body.records.map (fun r => { r with recorded_by := some tid }) }
        env).1) && ! false) = true := by
      rw [hok]
      show (xpMsgTriggers "Marks saved" && ! false) = true
      decide
    simp only [postTeacherMarks]
    rw [if_pos hcond]
    show addTeacherXPEnv (marksPost
        { body with
          records := body.records.map (fun r => { r with recorded_by := some tid }) }
        env).2.teachers tid XP_MARKS = addTeacherXPEnv env.teachers tid XP_MARKS
    rw [marksPost_teachers]

theorem claim_c9_flat_rewards_witness :
    (postAttendance 1 ⟨1, "admin"⟩ ⟨"2024-01-02", 3, [⟨7, "Present"⟩]⟩ false
        ⟨[(7, 3)], [], [(1, ⟨0, 1, 250⟩)], [], []⟩).2.teachers =
      addTeacherXPEnv [(1, ⟨0, 1, 250⟩)] 1 XP_ATTENDANCE ∧
    (postTeacherMarks 1 ⟨1, "teacher"⟩
        ⟨none, 5, "Midterm", none, [⟨7, none, some 90, none, none⟩]⟩ false
        ⟨[], [], [(1, ⟨0, 1, 250⟩)], [], []⟩).2.teachers =
      addTeacherXPEnv [(1, ⟨0, 1, 250⟩)] 1 XP_MARKS := by
  exact ⟨claim_c9_flat_rewards.1 1 ⟨1, "admin"⟩ ⟨"2024-01-02", 3, [⟨7, "Present"⟩]⟩
      ⟨[(7, 3)], [], [(1, ⟨0, 1, 250⟩)], [], []⟩ "Saved" 1 (by decide),
    claim_c9_flat_rewards.2.1 1 ⟨1, "teacher"⟩
      ⟨none, 5, "Midterm", none, [⟨7, none, some 90, none, none⟩]⟩
      ⟨[], [], [(1, ⟨0, 1, 250⟩)], [], []⟩ "Marks saved" 1 (by decide)⟩

end CampusMate
